import Mathlib

/-!
Verification of the MGANPrior reproduction repository.

The repository performs GAN inversion: gradient-based latent search through a
frozen, pretrained progressive GAN.  Three source files are modelled here:

* `Derivable_Models/Derivable_Generator.py` — the single-code (`PGGAN`) and
  multi-code (`PGGAN_multi_z`) generator wrappers and the factory
  `get_derivable_generator`;
* `inversion/inversion_methods.py` — the `get_inversion` factory and the
  `GradientDescent.invert` optimization loop;
* `GAN/pggan_generator_network.py` — the frozen generator network definition,
  in particular the constructor-time resolution validation and the
  pixel-wise feature normalization layer.

Numeric tensor data is embedded with exact rationals (`ℚ`) except for the
pixel-norm layer, whose square root is modelled over the reals (`ℝ`).
Mutable PyTorch tensors inside the inversion loop are embedded with an
explicit heap (`Store`), so that aliasing and deep-copy independence are
expressible.  The frozen generator's learned sub-networks are abstract
function parameters: the claims under study do not depend on their values.
-/

namespace MGAN

/-! ## Tensors as values -/

/-- A PyTorch tensor value: a declared shape plus flattened data.  Used for
the latent tensors handled by the inversion code. -/
structure PyTensor where
  shape : List ℕ
  data : List ℚ
deriving DecidableEq, Inhabited

/-- `torch.full(shape, v)` — a tensor of the given shape, every element `v`. -/
def torchFull (shape : List ℕ) (v : ℚ) : PyTensor :=
  ⟨shape, List.replicate (shape.foldl (· * ·) 1) v⟩

/-- `torch.zeros(shape)`. -/
def torchZeros (shape : List ℕ) : PyTensor :=
  torchFull shape 0

/-- `torch.randn(shape)`: the sampled data is supplied by the ambient random
stream `randn`, modelled as a function from the requested shape to data. -/
def torchRandn (randn : List ℕ → List ℚ) (shape : List ℕ) : PyTensor :=
  ⟨shape, randn shape⟩

/-! ## Derivable_Generator.py: topology tables -/

/-- `PGGAN_LATENT_1024`: feature-map shape `(channels, height, width)` at each
stage boundary of the 1024-resolution PGGAN. -/
def PGGAN_LATENT_1024 : List (ℕ × ℕ × ℕ) :=
  [(512, 1, 1),
   (512, 4, 4), (512, 4, 4),
   (512, 8, 8), (512, 8, 8),
   (512, 16, 16), (512, 16, 16),
   (512, 32, 32), (512, 32, 32),
   (256, 64, 64), (256, 64, 64),
   (128, 128, 128), (128, 128, 128),
   (64, 256, 256), (64, 256, 256),
   (32, 512, 512), (32, 512, 512),
   (16, 1024, 1024), (16, 1024, 1024),
   (3, 1024, 1024)]

/-- `PGGAN_LATENT_256`: stage shapes of the 256-resolution PGGAN. -/
def PGGAN_LATENT_256 : List (ℕ × ℕ × ℕ) :=
  [(512, 1, 1), (512, 4, 4),
   (512, 4, 4), (512, 8, 8),
   (512, 8, 8), (512, 16, 16),
   (512, 16, 16), (512, 32, 32),
   (512, 32, 32), (256, 64, 64),
   (256, 64, 64), (128, 128, 128),
   (128, 128, 128), (64, 256, 256),
   (64, 256, 256), (3, 256, 256)]

/-! ## Derivable_Generator.py: single-code wrapper `PGGAN` -/

/-- The single-code wrapper class `PGGAN`.  Its frozen generator
(`get_gan_model(gan_model_name)`) is an abstract latent-to-image function. -/
structure PGGAN where
  pggan : PyTensor → PyTensor

/-- `PGGAN.input_size`: the single declared input shape `(512,)`. -/
def PGGAN.input_size (_ : PGGAN) : List (List ℕ) :=
  [[512]]

/-- `PGGAN.init` attribute: the single-code wrapper has no randomized
initializer (`self.init = False`). -/
def PGGAN.init (_ : PGGAN) : Bool :=
  false

/-- `PGGAN.forward`: `latent = z[0]; return self.pggan(latent)`. -/
def PGGAN.forward (G : PGGAN) (z : List PyTensor) : PyTensor :=
  G.pggan (z.getD 0 ⟨[], []⟩)

/-! ## Derivable_Generator.py: multi-code wrapper `PGGAN_multi_z`

The pre-stage sub-network maps a latent vector (the `(batch, z_dim, 1, 1)`
view of one latent code) to a feature map indexed by
`(channel, height, width)`; the post-stage maps a feature map to the output
image tensor.  Both are per-sample functions, matching how `nn.Sequential`
modules act independently on each batch element. -/

/-- A latent vector, indexed by its feature dimension. -/
abbrev LatentVec := ℕ → ℚ

/-- A feature map indexed by `(channel, height, width)`. -/
abbrev FeatureMap := ℕ → ℕ → ℕ → ℚ

/-- A three-dimensional tensor indexed by `(batch, code, feature)`,
covering both `z_estimate` and `alpha_estimate`. -/
abbrev Tensor3 := ℕ → ℕ → ℕ → ℚ

/-- Pointwise addition of feature maps (tensor `+`). -/
def addFM (f g : FeatureMap) : FeatureMap :=
  fun c h w => f c h w + g c h w

/-- The zero feature map: Python's `sum` starts from `0`, which broadcasts. -/
def zeroFM : FeatureMap :=
  fun _ _ _ => 0

/-- Python's `sum(feature_maps_list)`: left fold of `+` starting from `0`. -/
def sumFM (l : List FeatureMap) : FeatureMap :=
  l.foldl addFM zeroFM

/-- The multi-code wrapper class `PGGAN_multi_z`. -/
structure MultiZ where
  blending_layer : ℕ
  z_number : ℕ
  z_dim : ℕ
  pre_model : LatentVec → FeatureMap
  post_model : FeatureMap → FeatureMap
  mask_size : ℕ × ℕ
  layer_c_number : ℕ

/-- The `PGGAN_multi_z.__init__` constructor: selects the 1024 topology table
for `PGGAN-CelebA` and the 256 table otherwise, sets `z_dim = 512`, and reads
`mask_size` and `layer_c_number` from the table entry at `blending_layer`. -/
def PGGAN_multi_z.make (gan_model_name : String) (blending_layer z_number : ℕ)
    (pre_model : LatentVec → FeatureMap) (post_model : FeatureMap → FeatureMap) :
    MultiZ :=
  let PGGAN_LATENT :=
    if gan_model_name = "PGGAN-CelebA" then PGGAN_LATENT_1024 else PGGAN_LATENT_256
  let entry := PGGAN_LATENT.getD blending_layer (0, 0, 0)
  { blending_layer := blending_layer
    z_number := z_number
    z_dim := 512
    pre_model := pre_model
    post_model := post_model
    mask_size := (entry.2.1, entry.2.2)
    layer_c_number := entry.1 }

/-- `PGGAN_multi_z.input_size`:
`[(z_number, z_dim), (z_number, layer_c_number)]`. -/
def MultiZ.input_size (G : MultiZ) : List (List ℕ) :=
  [[G.z_number, G.z_dim], [G.z_number, G.layer_c_number]]

/-- `PGGAN_multi_z.init` attribute: the multi-code wrapper advertises a
randomized initializer (`self.init = True`). -/
def MultiZ.init (_ : MultiZ) : Bool :=
  true

/-- `PGGAN_multi_z.init_value(batch_size)`: a randomly sampled `z_estimate` of
shape `(batch_size, z_number, z_dim)` and an `alpha_estimate` built by
`torch.full((batch_size, z_number, layer_c_number), 1 / z_number)`. -/
def MultiZ.init_value (G : MultiZ) (randn : List ℕ → List ℚ) (batch_size : ℕ) :
    List PyTensor :=
  [torchRandn randn [batch_size, G.z_number, G.z_dim],
   torchFull [batch_size, G.z_number, G.layer_c_number] (1 / (G.z_number : ℚ))]

/-- The loop body of `PGGAN_multi_z.forward`: the `j`-th entry of
`feature_maps_list` is `pre_model(z_estimate[:, j, :].view(-1, z_dim, 1, 1))`
multiplied elementwise by `alpha_estimate[:, j, :].view(-1, layer_c_number,
1, 1)`, the alpha factor broadcast over the spatial dimensions.  `b` fixes the
batch element. -/
def MultiZ.feature_maps_list (G : MultiZ) (z_estimate alpha_estimate : Tensor3)
    (b : ℕ) : List FeatureMap :=
  (List.range G.z_number).map (fun j =>
    fun c h w => G.pre_model (fun k => z_estimate b j k) c h w * alpha_estimate b j c)

/-- `fused_feature_map = sum(feature_maps_list) / self.z_number`. -/
def MultiZ.fused_feature_map (G : MultiZ) (z_estimate alpha_estimate : Tensor3)
    (b : ℕ) : FeatureMap :=
  fun c h w => sumFM (G.feature_maps_list z_estimate alpha_estimate b) c h w
      / (G.z_number : ℚ)

/-- `PGGAN_multi_z.forward`: the fused feature map fed through the
post-stage. -/
def MultiZ.forward (G : MultiZ) (z_estimate alpha_estimate : Tensor3) (b : ℕ) :
    FeatureMap :=
  G.post_model (G.fused_feature_map z_estimate alpha_estimate b)

/-! ## Derivable_Generator.py: the factory `get_derivable_generator` -/

/-- The `args` bundle consumed by the factory. -/
structure GenArgs where
  composing_layer : ℕ
  z_number : ℕ
deriving DecidableEq

/-- The dispatch outcome of the factory: which wrapper class is constructed,
with which constructor arguments. -/
inductive GeneratorChoice where
  | pgganZ (gan_model_name : String)
  | pgganMultiZ (gan_model_name : String) (composing_layer z_number : ℕ)
deriving DecidableEq

/-- `get_derivable_generator`: dispatch on `generator_type`, raising
`Exception('Please indicate valid generator_type')` (with the parameter name
in backquotes) for any unrecognized value. -/
def get_derivable_generator (gan_model_name generator_type : String)
    (args : GenArgs) : Except String GeneratorChoice :=
  if generator_type = "PGGAN-z" then
    .ok (.pgganZ gan_model_name)
  else if generator_type = "PGGAN-Multi-Z" then
    .ok (.pgganMultiZ gan_model_name args.composing_layer args.z_number)
  else
    .error "Please indicate valid `generator_type`"

/-! ## inversion_methods.py: the factory `get_inversion` -/

/-- The two optimizer strategies the factory can select. -/
inductive OptimChoice where
  | SGD
  | Adam
deriving DecidableEq

/-- The `args` bundle consumed by `get_inversion`. -/
structure InvArgs where
  iterations : ℕ
  lr : ℚ
  init_type : String
deriving DecidableEq

/-- The `GradientDescent` object built by the factory. -/
structure GradientDescent where
  iterations : ℕ
  lr : ℚ
  optimizer : OptimChoice
  init_type : String
deriving DecidableEq

/-- `get_inversion`: `'GD'` and `'Adam'` build a `GradientDescent`; any other
selector falls off the end of the function, returning Python's `None`
(modelled as `Option.none`) instead of raising. -/
def get_inversion (inversion_type : String) (args : InvArgs) :
    Option GradientDescent :=
  if inversion_type = "GD" then
    some ⟨args.iterations, args.lr, .SGD, args.init_type⟩
  else if inversion_type = "Adam" then
    some ⟨args.iterations, args.lr, .Adam, args.init_type⟩
  else
    none

/-! ## pggan_generator_network.py: constructor of `PGGANGeneratorNet` -/

/-- `_RESOLUTIONS_ALLOWED`. -/
def RESOLUTIONS_ALLOWED : List ℕ :=
  [8, 16, 32, 64, 128, 256, 512, 1024]

/-- `_INIT_RES`. -/
def INIT_RES : ℕ := 4

/-- The configuration of one `ConvBlock` sub-module as recorded by its
constructor (the learned weights themselves are irrelevant to the claims). -/
structure ConvBlockModel where
  in_channels : ℕ
  out_channels : ℕ
  kernel_size : ℕ
  stride : ℕ
  padding : ℕ
  upsample : Bool
  fused_scale : Bool
  activation_type : String
deriving DecidableEq

/-- `ConvBlock.__init__`: recognizes the activation types `linear`, `lrelu`
and `tanh`, raising `NotImplementedError` for anything else. -/
def mkConvBlock (in_channels out_channels kernel_size padding : ℕ)
    (upsample fused_scale : Bool) (activation_type : String) :
    Except String ConvBlockModel :=
  if activation_type = "linear" ∨ activation_type = "lrelu" ∨
      activation_type = "tanh" then
    .ok ⟨in_channels, out_channels, kernel_size, 1, padding, upsample,
         fused_scale, activation_type⟩
  else
    .error ("Not implemented activation function: " ++ activation_type ++ "!")

/-- `PGGANGeneratorNet.get_nf`: `min(fmaps_base // res, fmaps_max)`. -/
def get_nf (fmaps_base fmaps_max res : ℕ) : ℕ :=
  min (fmaps_base / res) fmaps_max

/-- Fuel-driven floor logarithm base 2 (structural, hence reducible). -/
def log2floorAux : ℕ → ℕ → ℕ
  | 0, _ => 0
  | fuel + 1, n => if n ≤ 1 then 0 else log2floorAux fuel (n / 2) + 1

/-- `int(np.log2(n))` for the powers of two handled by the network:
the floor of the base-2 logarithm. -/
def intLog2 (n : ℕ) : ℕ :=
  log2floorAux n n

/-- The constructor loop of `PGGANGeneratorNet.__init__`: for each
`res_log2` in `[init_res_log2, final_res_log2]` it adds a first convolution
layer (a dense-style block at the initial resolution, an upsampling block
later), a second convolution layer, and a `to-RGB` output layer with linear
activation. -/
def buildBlocks (z_space_dim image_channels : ℕ) (fused_scale : Bool)
    (fmaps_base fmaps_max init_res init_res_log2 final_res_log2 : ℕ) :
    Except String (List ConvBlockModel) :=
  (List.range (final_res_log2 + 1 - init_res_log2)).foldlM (fun acc i =>
    let res := 2 ^ (init_res_log2 + i)
    do
      let b1 ←
        if res = init_res then
          mkConvBlock z_space_dim (get_nf fmaps_base fmaps_max res) init_res 3
            false false "lrelu"
        else
          mkConvBlock (get_nf fmaps_base fmaps_max (res / 2))
            (get_nf fmaps_base fmaps_max res) 3 1 true fused_scale "lrelu"
      let b2 ← mkConvBlock (get_nf fmaps_base fmaps_max res)
        (get_nf fmaps_base fmaps_max res) 3 1 false false "lrelu"
      let bOut ← mkConvBlock (get_nf fmaps_base fmaps_max res)
        image_channels 1 0 false false "linear"
      pure (acc ++ [b1, b2, bOut])) []

/-- The constructed frozen generator network (configuration view). -/
structure PGGANGeneratorNet where
  resolution : ℕ
  z_space_dim : ℕ
  image_channels : ℕ
  fused_scale : Bool
  fmaps_base : ℕ
  fmaps_max : ℕ
  init_res : ℕ
  init_res_log2 : ℕ
  final_res_log2 : ℕ
  num_layers : ℕ
  blocks : List ConvBlockModel
deriving DecidableEq

/-- `PGGANGeneratorNet.__init__`: validates the resolution against
`_RESOLUTIONS_ALLOWED` first — raising
`ValueError('Invalid resolution: ...')` for any other value — and otherwise
computes the log-resolution bookkeeping and constructs every sub-block.
The validation happens here, at construction time, never in `forward`. -/
def PGGANGeneratorNet.build (resolution z_space_dim image_channels : ℕ)
    (fused_scale : Bool) (fmaps_base fmaps_max : ℕ) :
    Except String PGGANGeneratorNet :=
  if resolution ∈ RESOLUTIONS_ALLOWED then
    let init_res := INIT_RES
    let init_res_log2 := intLog2 init_res
    let final_res_log2 := intLog2 resolution
    let num_layers := (final_res_log2 - init_res_log2 + 1) * 2
    match buildBlocks z_space_dim image_channels fused_scale fmaps_base
        fmaps_max init_res init_res_log2 final_res_log2 with
    | .error e => .error e
    | .ok blocks =>
        .ok ⟨resolution, z_space_dim, image_channels, fused_scale, fmaps_base,
             fmaps_max, init_res, init_res_log2, final_res_log2, num_layers,
             blocks⟩
  else
    .error ("Invalid resolution: " ++ toString resolution ++
      "! Resolutions allowed: " ++ toString RESOLUTIONS_ALLOWED ++ ".")

/-! ## pggan_generator_network.py: `PixelNormLayer`

The layer acts independently on each spatial location, dividing the channel
vector there by `sqrt(mean(x ** 2, dim=1) + eps)`.  One location's channel
vector is modelled as `x : Fin n → ℝ` with `n` the channel count. -/

/-- `PixelNormLayer.forward` at one spatial location:
`x / torch.sqrt(torch.mean(x ** 2, dim=1, keepdim=True) + self.eps)`. -/
noncomputable def PixelNormLayer.forward (eps : ℝ) (n : ℕ) (x : Fin n → ℝ) :
    Fin n → ℝ :=
  fun i => x i / Real.sqrt ((∑ j, x j ^ 2) / (n : ℝ) + eps)

/-- Modelled from the spec sentence behind claim C8: the channel vector
divided by "(sqrt(mean of squared channel values) + epsilon)", i.e. with the
stabilizing constant added outside the square root.  Kept separate from
`PixelNormLayer.forward` for comparison. -/
noncomputable def pixelNormSpecClaim (eps : ℝ) (n : ℕ) (x : Fin n → ℝ) :
    Fin n → ℝ :=
  fun i => x i / (Real.sqrt ((∑ j, x j ^ 2) / (n : ℝ)) + eps)

/-! ## inversion_methods.py: `GradientDescent.invert` — initialization phase

Python local-variable semantics are modelled explicitly: the local
`latent_estimate` is an `Option`, `none` standing for "not yet bound", so an
`UnboundLocalError` at its first use is representable (and refutable). -/

/-- The errors `invert` itself can raise during initialization. -/
inductive InvertError where
  | assertionError (msg : String)
  | unboundLocalError (varName : String)
deriving DecidableEq

/-- The initialization phase of `GradientDescent.invert` (lines 27-45):
explicit `*init` latents are taken as-is after the count assertion; otherwise
either the generator's own `init_value` result is used (when
`generator.init` is not `False`) or tensors are filled per `init_type`
(`'Zero'` or `'Normal'`), starting from `latent_estimate = []` and appending
one tensor per declared input size. -/
def invertInitLatents (randn : List ℕ → List ℚ)
    (input_size_list : List (List ℕ)) (generator_init : Bool)
    (generator_init_value : List PyTensor) (init_type : String)
    (batch_size : ℕ) (init : List PyTensor) :
    Except InvertError (List PyTensor) :=
  if init.length = 0 then
    let latent_estimate : Option (List PyTensor) :=
      if generator_init = false then
        some (input_size_list.foldl (fun acc input_size =>
          if init_type = "Zero" then
            acc ++ [torchZeros (batch_size :: input_size)]
          else if init_type = "Normal" then
            acc ++ [torchRandn randn (batch_size :: input_size)]
          else
            acc) [])
      else
        some generator_init_value
    match latent_estimate with
    | some l => .ok l
    | none => .error (.unboundLocalError "latent_estimate")
  else
    if init.length = input_size_list.length then
      .ok init
    else
      .error (.assertionError "Please check the number of init value")

/-! ## inversion_methods.py: the optimization loop, over an explicit heap

Latent tensors are mutable PyTorch objects; the loop mutates them in place
through `optimizer.step()` and records `copy.deepcopy(latent_estimate)`
snapshots into `history` when `video` is set.  The heap is a list of
`PyTensor` values indexed by address; live latents and history entries are
address lists into that heap, so deep-copy independence is a statement about
distinct addresses. -/

/-- Heap addresses. -/
abbrev Addr := ℕ

/-- The tensor heap. -/
abbrev Store := List PyTensor

/-- Dereference an address (out-of-range reads yield a dummy tensor; all
reads proved about are in range). -/
def readAddr (s : Store) (a : Addr) : PyTensor :=
  s.getD a ⟨[], []⟩

/-- Write a list of address/value pairs into the heap, left to right. -/
def writeAll (s : Store) (ps : List (Addr × PyTensor)) : Store :=
  ps.foldl (fun acc p => acc.set p.1 p.2) s

/-- The mutable state of one `invert` run. -/
structure LoopState where
  store : Store
  live : List Addr
  history : List (List Addr)
deriving DecidableEq

/-- `optimizer.step()` at iteration `i`: the latent tensors are updated in
place as a function `upd` of the iteration index and their current values
(forward/loss/backward only produce the gradients `upd` consumes; they do
not mutate the latents). -/
def optimizerStep (upd : ℕ → List PyTensor → List PyTensor) (i : ℕ)
    (st : LoopState) : LoopState :=
  let cur := st.live.map (readAddr st.store)
  { st with store := writeAll st.store (st.live.zip (upd i cur)) }

/-- `history.append(copy.deepcopy(latent_estimate))`: fresh addresses are
allocated at the end of the heap, holding copies of the current live values,
and the fresh address list is appended to `history`. -/
def deepcopyAppend (st : LoopState) : LoopState :=
  let cur := st.live.map (readAddr st.store)
  let newAddrs := (List.range st.live.length).map (fun j => st.store.length + j)
  { store := st.store ++ cur
    live := st.live
    history := st.history ++ [newAddrs] }

/-- One iteration of the `for i in tqdm(range(self.iterations))` loop:
forward, `zero_grad`, loss, backward, `optimizer.step()`, then the optional
deep-copy snapshot. -/
def iterBody (upd : ℕ → List PyTensor → List PyTensor) (video : Bool) (i : ℕ)
    (st : LoopState) : LoopState :=
  let st1 := optimizerStep upd i st
  if video then deepcopyAppend st1 else st1

/-- Run `k` remaining iterations starting at iteration index `i`. -/
def loopFrom (upd : ℕ → List PyTensor → List PyTensor) (video : Bool) :
    ℕ → ℕ → LoopState → LoopState
  | _, 0, st => st
  | i, Nat.succ k, st => loopFrom upd video (i + 1) k (iterBody upd video i st)

/-- The full optimization loop of `invert`: the initial latents populate the
heap (addresses `0, …, len-1` are the live tensors), `history` starts empty,
and `iterations` iterations run. -/
def invertRun (upd : ℕ → List PyTensor → List PyTensor) (video : Bool)
    (iterations : ℕ) (initLatents : List PyTensor) : LoopState :=
  loopFrom upd video 0 iterations
    { store := initLatents
      live := List.range initLatents.length
      history := [] }

/-- `GradientDescent.invert`: initialization phase, then the loop.  An
initialization failure surfaces before any iteration executes. -/
def GradientDescent.invert (self : GradientDescent)
    (randn : List ℕ → List ℚ) (input_size_list : List (List ℕ))
    (generator_init : Bool) (generator_init_value : List PyTensor)
    (batch_size : ℕ) (upd : ℕ → List PyTensor → List PyTensor)
    (video : Bool) (init : List PyTensor) : Except InvertError LoopState :=
  match invertInitLatents randn input_size_list generator_init
      generator_init_value self.init_type batch_size init with
  | .error e => .error e
  | .ok latents => .ok (invertRun upd video self.iterations latents)

/-! ## Ghost functions describing the loop's reachable states -/

/-- The latent values after `k` optimizer steps from `v0`. -/
def valsAfter (upd : ℕ → List PyTensor → List PyTensor) :
    ℕ → List PyTensor → List PyTensor
  | 0, v0 => v0
  | Nat.succ k, v0 => upd k (valsAfter upd k v0)

/-- The concatenated snapshot region of the heap after `i` iterations with
`video = true`: the deep copies taken after steps `1, …, i`, in order. -/
def snapsConcat (upd : ℕ → List PyTensor → List PyTensor)
    (v0 : List PyTensor) : ℕ → List PyTensor
  | 0 => []
  | Nat.succ k => snapsConcat upd v0 k ++ valsAfter upd (k + 1) v0

/-- The address list of the `k`-th history entry when every latent list has
length `L`: the snapshot taken after step `k + 1` lives at offsets
`L + k * L, …, L + k * L + L - 1`. -/
def histEntry (L k : ℕ) : List Addr :=
  (List.range L).map (fun j => L + k * L + j)

/-- The history address lists after `i` iterations with `video = true`. -/
def histAddrs (L : ℕ) : ℕ → List (List Addr)
  | 0 => []
  | Nat.succ k => histAddrs L k ++ [histEntry L k]

/-! ## Concrete fixtures used by witness theorems -/

/-- A small concrete multi-code wrapper: CelebA model, split at layer 6,
two latent codes, with simple concrete pre/post stages. -/
def mzTest : MultiZ :=
  PGGAN_multi_z.make "PGGAN-CelebA" 6 2 (fun v _ _ _ => v 0) (fun f => f)

/-- A concrete `z_estimate`: entry `(b, j, k)` is `j + 1`. -/
def zTest : Tensor3 :=
  fun _ j _ => (j : ℚ) + 1

/-- A concrete `alpha_estimate`: entry `(b, j, c)` is `c + 1`. -/
def aTest : Tensor3 :=
  fun _ _ c => (c : ℚ) + 1

/-- A concrete `GradientDescent` object: one iteration, learning rate 1. -/
def gdTest : GradientDescent :=
  ⟨1, 1, .SGD, "Normal"⟩

/-- A degenerate random stream producing empty data. -/
def randnTest : List ℕ → List ℚ :=
  fun _ => []

/-- A concrete in-place optimizer update: adds 1 to every data entry. -/
def updTest : ℕ → List PyTensor → List PyTensor :=
  fun _ vs => vs.map (fun t => ⟨t.shape, t.data.map (· + 1)⟩)

/-! # Theorems -/

/-! ## Helper lemmas -/

/-- Python's `sum` over a loop-built list of feature maps is the indexed
finite sum. -/
theorem sumFM_map_range (f : ℕ → FeatureMap) (n c h w : ℕ) :
    sumFM ((List.range n).map f) c h w = ∑ j ∈ Finset.range n, f j c h w := by
  induction n with
  | zero => simp [sumFM, zeroFM]
  | succ m ih =>
      rw [List.range_succ, List.map_append, Finset.sum_range_succ, ← ih]
      simp [sumFM, List.foldl_append, addFM]

/-! ## Claim C1: multi-code fusion is the arithmetic mean -/

/-- Claim C1: in `PGGAN_multi_z.forward`, the feature map fed to the
post-stage is the fused feature map, and for every batch element and every
`(channel, height, width)` index the fused feature map equals the sum over
`j < z_number` of the pre-stage image of the `j`-th latent code weighted by
its alpha slice, divided by `z_number` — the arithmetic mean of the weighted
feature maps. -/
theorem multi_z_forward_fuses_mean (G : MultiZ)
    (z_estimate alpha_estimate : Tensor3) (b c h w : ℕ)
    (hz : 1 ≤ G.z_number) :
    G.forward z_estimate alpha_estimate b =
        G.post_model (G.fused_feature_map z_estimate alpha_estimate b) ∧
    G.fused_feature_map z_estimate alpha_estimate b c h w =
      (∑ j ∈ Finset.range G.z_number,
        G.pre_model (fun k => z_estimate b j k) c h w * alpha_estimate b j c) /
        (G.z_number : ℚ) := by
  refine ⟨rfl, ?_⟩
  simp only [MultiZ.fused_feature_map, MultiZ.feature_maps_list]
  rw [sumFM_map_range]

/-- Witness for C1 at a concrete wrapper and concrete latents. -/
theorem multi_z_forward_fuses_mean_witness :
    1 ≤ mzTest.z_number ∧
    (mzTest.forward zTest aTest 0 =
        mzTest.post_model (mzTest.fused_feature_map zTest aTest 0) ∧
     mzTest.fused_feature_map zTest aTest 0 0 0 0 =
       (∑ j ∈ Finset.range mzTest.z_number,
         mzTest.pre_model (fun k => zTest 0 j k) 0 0 0 * aTest 0 j 0) /
         (mzTest.z_number : ℚ)) :=
  ⟨by decide, multi_z_forward_fuses_mean mzTest zTest aTest 0 0 0 0 (by decide)⟩

/-! ## Claim C2: `init_value` shapes and the uniform alpha fill -/

/-- Claim C2: for every batch size ≥ 1 and `z_number` ≥ 1,
`PGGAN_multi_z.init_value(batch_size)` returns a `z_estimate` of shape
`(batch_size, z_number, z_dim)` alongside an `alpha_estimate` of shape
`(batch_size, z_number, layer_c_number)` whose every element is exactly
`1 / z_number`. -/
theorem multi_z_init_value_alpha (G : MultiZ) (randn : List ℕ → List ℚ)
    (batch_size : ℕ) (hb : 1 ≤ batch_size) (hz : 1 ≤ G.z_number) :
    ∃ ze za, G.init_value randn batch_size = [ze, za] ∧
      ze.shape = [batch_size, G.z_number, G.z_dim] ∧
      za.shape = [batch_size, G.z_number, G.layer_c_number] ∧
      za.data.length = batch_size * G.z_number * G.layer_c_number ∧
      ∀ x ∈ za.data, x = 1 / (G.z_number : ℚ) := by
  refine ⟨_, _, rfl, rfl, rfl, ?_, ?_⟩
  · simp [torchFull, List.foldl]
  · intro x hx
    exact List.eq_of_mem_replicate hx

/-- Witness for C2 at the concrete wrapper `mzTest` and batch size 1. -/
theorem multi_z_init_value_alpha_witness :
    1 ≤ 1 ∧ 1 ≤ mzTest.z_number ∧
    (∃ ze za, mzTest.init_value randnTest 1 = [ze, za] ∧
      ze.shape = [1, mzTest.z_number, mzTest.z_dim] ∧
      za.shape = [1, mzTest.z_number, mzTest.layer_c_number] ∧
      za.data.length = 1 * mzTest.z_number * mzTest.layer_c_number ∧
      ∀ x ∈ za.data, x = 1 / (mzTest.z_number : ℚ)) :=
  ⟨le_refl 1, by decide,
    multi_z_init_value_alpha mzTest randnTest 1 (le_refl 1) (by decide)⟩

/-! ## Claim C4: the factory error does not name the invalid value -/

/-- Counterexample to C4 as stated: with the unrecognized value `"Bogus"`,
the factory raises the fixed message `Please indicate valid generator_type`
(parameter name in backquotes), and the passed value `"Bogus"` does not occur
in that message. -/
theorem generator_type_error_counterexample :
    get_derivable_generator "PGGAN-CelebA" "Bogus" ⟨6, 30⟩ =
      Except.error "Please indicate valid `generator_type`" ∧
    ¬ "Bogus".toList <:+: "Please indicate valid `generator_type`".toList := by
  exact ⟨rfl, by decide⟩

/-- Amended C4: calling the factory with any `generator_type` other than
`'PGGAN-z'` and `'PGGAN-Multi-Z'` raises a configuration error whose fixed
message names the `generator_type` parameter (not the passed value). -/
theorem generator_type_error_fixed_message (gan_model_name generator_type : String)
    (args : GenArgs) (h1 : generator_type ≠ "PGGAN-z")
    (h2 : generator_type ≠ "PGGAN-Multi-Z") :
    get_derivable_generator gan_model_name generator_type args =
      Except.error "Please indicate valid `generator_type`" := by
  simp [get_derivable_generator, h1, h2]

/-- Witness for the amended C4 at the concrete invalid value `"Bogus"`. -/
theorem generator_type_error_fixed_message_witness :
    ("Bogus" : String) ≠ "PGGAN-z" ∧ ("Bogus" : String) ≠ "PGGAN-Multi-Z" ∧
    get_derivable_generator "PGGAN-CelebA" "Bogus" ⟨6, 30⟩ =
      Except.error "Please indicate valid `generator_type`" :=
  ⟨by decide, by decide,
    generator_type_error_fixed_message "PGGAN-CelebA" "Bogus" ⟨6, 30⟩
      (by decide) (by decide)⟩

/-! ## Claim C5: resolution validation at construction time -/

/-- Claim C5: constructing the frozen generator (with the source's default
configuration) succeeds exactly for resolutions in
`{8, 16, 32, 64, 128, 256, 512, 1024}`; every other value is rejected with a
configuration error by the constructor itself — the check lives in
`__init__`, before any forward pass can run. -/
theorem pggan_resolution_validation (resolution : ℕ) :
    (∃ net, PGGANGeneratorNet.build resolution 512 3 false (16 * 1024) 512 =
        Except.ok net) ↔ resolution ∈ RESOLUTIONS_ALLOWED := by
  constructor
  · rintro ⟨net, hnet⟩
    by_contra hmem
    rw [PGGANGeneratorNet.build, if_neg hmem] at hnet
    cases hnet
  · intro hmem
    rw [RESOLUTIONS_ALLOWED] at hmem
    fin_cases hmem <;> exact ⟨_, by rfl⟩

/-! ## Claim C7: the single-code wrapper is a pure pass-through -/

/-- Claim C7: for every frozen generator `p` and latent `z`, the single-code
wrapper's `forward([z])` is exactly `p z`, and `input_size()` declares the
single shape `(512,)`. -/
theorem pggan_single_passthrough (p : PyTensor → PyTensor) (z : PyTensor) :
    PGGAN.forward ⟨p⟩ [z] = p z ∧ PGGAN.input_size ⟨p⟩ = [[512]] :=
  ⟨rfl, rfl⟩

/-! ## Claim C10: `get_inversion` returns `None` on unknown selectors -/

/-- Claim C10: for any `inversion_type` other than `'GD'` and `'Adam'`,
`get_inversion` falls off the end of the function and returns `None`
instead of raising. -/
theorem get_inversion_unknown_none (inversion_type : String) (args : InvArgs)
    (h1 : inversion_type ≠ "GD") (h2 : inversion_type ≠ "Adam") :
    get_inversion inversion_type args = none := by
  simp [get_inversion, h1, h2]

/-- Witness for C10 at the concrete invalid selector `"Newton"`. -/
theorem get_inversion_unknown_none_witness :
    ("Newton" : String) ≠ "GD" ∧ ("Newton" : String) ≠ "Adam" ∧
    get_inversion "Newton" ⟨100, 1, "Normal"⟩ = none :=
  ⟨by decide, by decide,
    get_inversion_unknown_none "Newton" ⟨100, 1, "Normal"⟩ (by decide) (by decide)⟩

/-! ## Claim C8: pixel-wise feature normalization -/

/-- Counterexample to C8 as stated: at the single-channel vector `(1)` with
the layer's `eps = 1e-8`, the code's output `1 / sqrt(1 + eps)` differs from
the claimed `1 / (sqrt 1 + eps)` — the stabilizing constant sits inside the
square root, not outside. -/
theorem pixel_norm_eps_counterexample :
    PixelNormLayer.forward (1 / 10 ^ 8) 1 (fun _ => 1) 0 ≠
      pixelNormSpecClaim (1 / 10 ^ 8) 1 (fun _ => 1) 0 := by
  simp only [PixelNormLayer.forward, pixelNormSpecClaim, Fin.sum_univ_one,
    one_pow, Nat.cast_one, div_one, Real.sqrt_one, one_div]
  rw [ne_eq, inv_inj]
  intro hk
  have h2 := Real.sq_sqrt (show (0:ℝ) ≤ 1 + ((10:ℝ) ^ 8)⁻¹ by norm_num)
  rw [hk] at h2
  norm_num at h2

/-- Amended C8: the layer divides each spatial location's channel vector by
`sqrt(mean of squared channel values + eps)` — multiplying the output back
by that root recovers the input exactly whenever `eps > 0`. -/
theorem pixel_norm_eps_inside_sqrt (eps : ℝ) (n : ℕ) (x : Fin n → ℝ)
    (heps : 0 < eps) (i : Fin n) :
    PixelNormLayer.forward eps n x i *
      Real.sqrt ((∑ j, x j ^ 2) / (n : ℝ) + eps) = x i := by
  have hm : (0:ℝ) ≤ (∑ j, x j ^ 2) / (n : ℝ) :=
    div_nonneg (Finset.sum_nonneg fun j _ => sq_nonneg _) (Nat.cast_nonneg n)
  have hpos : 0 < Real.sqrt ((∑ j, x j ^ 2) / (n : ℝ) + eps) :=
    Real.sqrt_pos.mpr (by linarith)
  simp only [PixelNormLayer.forward]
  exact div_mul_cancel₀ _ (ne_of_gt hpos)

/-- Witness for the amended C8 at `eps = 1`, one channel of value 1. -/
theorem pixel_norm_eps_inside_sqrt_witness :
    (0:ℝ) < 1 ∧
    PixelNormLayer.forward 1 1 (fun _ => 1) 0 *
      Real.sqrt ((∑ j : Fin 1, (fun _ => (1:ℝ)) j ^ 2) / ((1:ℕ) : ℝ) + 1) =
      (fun _ => (1:ℝ)) 0 :=
  ⟨by norm_num, pixel_norm_eps_inside_sqrt 1 1 (fun _ => 1) (by norm_num) 0⟩

/-! ## Claim C9: no unbound-variable error on an invalid `init_type` -/

/-- Counterexample to C9 as stated: with no explicit latents, a generator
without a randomized initializer, and the unrecognized `init_type = "Foo"`,
initialization completes normally with `latent_estimate` bound to the empty
list — it does not fail with an unbound-variable error (`latent_estimate = []`
is assigned before the fill loop, which merely appends nothing). -/
theorem invert_unbound_counterexample :
    invertInitLatents randnTest [[30, 512], [30, 512]] false [] "Foo" 1 []
        = Except.ok [] ∧
    invertInitLatents randnTest [[30, 512], [30, 512]] false [] "Foo" 1 []
        ≠ Except.error (InvertError.unboundLocalError "latent_estimate") := by
  have h0 : invertInitLatents randnTest [[30, 512], [30, 512]] false [] "Foo" 1 []
      = Except.ok [] := rfl
  refine ⟨h0, ?_⟩
  rw [h0]
  simp

/-- Amended C9: if `invert` is called with no explicit initial latents, the
bound generator signals `init = False`, and the configured `init_type` is
neither `'Zero'` nor `'Normal'`, the initialization phase neither raises an
unbound-variable error nor any other error: `latent_estimate` is bound to
the empty list (no latent tensor is allocated) and `invert` proceeds with
it — any failure arises later, outside `invert`'s own code. -/
theorem invert_invalid_init_type_empty (randn : List ℕ → List ℚ)
    (input_size_list : List (List ℕ)) (generator_init_value : List PyTensor)
    (init_type : String) (batch_size : ℕ)
    (h1 : init_type ≠ "Zero") (h2 : init_type ≠ "Normal") :
    invertInitLatents randn input_size_list false generator_init_value
        init_type batch_size [] = Except.ok [] := by
  have hfold : ∀ l : List (List ℕ),
      l.foldl (fun acc input_size =>
        if init_type = "Zero" then
          acc ++ [torchZeros (batch_size :: input_size)]
        else if init_type = "Normal" then
          acc ++ [torchRandn randn (batch_size :: input_size)]
        else
          acc) [] = ([] : List PyTensor) := by
    intro l
    induction l with
    | nil => rfl
    | cons a l ih =>
        rw [List.foldl_cons, if_neg h1, if_neg h2]
        exact ih
  unfold invertInitLatents
  simp [hfold input_size_list]

/-- Witness for the amended C9 at the concrete `init_type = "Foo"`. -/
theorem invert_invalid_init_type_empty_witness :
    ("Foo" : String) ≠ "Zero" ∧ ("Foo" : String) ≠ "Normal" ∧
    invertInitLatents randnTest [[30, 512], [30, 512]] false [] "Foo" 1 []
      = Except.ok [] :=
  ⟨by decide, by decide,
    invert_invalid_init_type_empty randnTest [[30, 512], [30, 512]] [] "Foo" 1
      (by decide) (by decide)⟩

/-! ## Claim C6: explicit initial latents must match the input-size list -/

/-- Claim C6: when explicit initial latents are supplied, `invert` proceeds
into the optimization loop exactly when their count equals the length of the
generator's declared input-size list; a mismatch fails with the assertion
`Please check the number of init value` before any iteration executes. -/
theorem invert_explicit_init_count (self : GradientDescent)
    (randn : List ℕ → List ℚ) (input_size_list : List (List ℕ))
    (generator_init : Bool) (generator_init_value : List PyTensor)
    (batch_size : ℕ) (upd : ℕ → List PyTensor → List PyTensor) (video : Bool)
    (init : List PyTensor) (hne : init ≠ []) :
    (init.length = input_size_list.length →
      self.invert randn input_size_list generator_init generator_init_value
        batch_size upd video init =
        Except.ok (invertRun upd video self.iterations init)) ∧
    (init.length ≠ input_size_list.length →
      self.invert randn input_size_list generator_init generator_init_value
        batch_size upd video init =
        Except.error (.assertionError "Please check the number of init value")) := by
  have hlen : init.length ≠ 0 := fun h => hne (List.length_eq_zero.mp h)
  constructor
  · intro hEq
    unfold GradientDescent.invert invertInitLatents
    rw [if_neg hlen, if_pos hEq]
  · intro hNe
    unfold GradientDescent.invert invertInitLatents
    rw [if_neg hlen, if_neg hNe]

/-- Witness for C6: a single explicit latent against a one-entry input-size
list. -/
theorem invert_explicit_init_count_witness :
    ([torchZeros [1, 512]] : List PyTensor) ≠ [] ∧
    (([torchZeros [1, 512]] : List PyTensor).length = ([[512]] : List (List ℕ)).length →
      gdTest.invert randnTest [[512]] false [] 1 updTest false [torchZeros [1, 512]] =
        Except.ok (invertRun updTest false gdTest.iterations [torchZeros [1, 512]])) ∧
    (([torchZeros [1, 512]] : List PyTensor).length ≠ ([[512]] : List (List ℕ)).length →
      gdTest.invert randnTest [[512]] false [] 1 updTest false [torchZeros [1, 512]] =
        Except.error (.assertionError "Please check the number of init value")) :=
  ⟨by simp,
    (invert_explicit_init_count gdTest randnTest [[512]] false [] 1 updTest false
      [torchZeros [1, 512]] (by simp)).1,
    (invert_explicit_init_count gdTest randnTest [[512]] false [] 1 updTest false
      [torchZeros [1, 512]] (by simp)).2⟩

/-! ## Heap lemmas for the optimization loop -/

/-- `writeAll` on an empty write list is the identity. -/
theorem writeAll_nil (s : Store) : writeAll s [] = s :=
  rfl

/-- `writeAll` peels one write off the front. -/
theorem writeAll_cons (s : Store) (a : Addr) (v : PyTensor)
    (ps : List (Addr × PyTensor)) :
    writeAll s ((a, v) :: ps) = writeAll (s.set a v) ps :=
  rfl

/-- Reading an address unaffected by a single write. -/
theorem readAddr_set_ne (s : Store) (b : Addr) (v : PyTensor) (a : Addr)
    (h : b ≠ a) : readAddr (s.set b v) a = readAddr s a := by
  simp [readAddr, List.getD_eq_getElem?_getD, List.getElem?_set_ne h]

/-- Reading an address none of the writes touch. -/
theorem readAddr_writeAll_ne (ps : List (Addr × PyTensor)) (s : Store)
    (a : Addr) (h : ∀ p ∈ ps, p.1 ≠ a) :
    readAddr (writeAll s ps) a = readAddr s a := by
  induction ps generalizing s with
  | nil => rfl
  | cons p ps ih =>
      rw [show p = (p.1, p.2) from rfl, writeAll_cons]
      rw [ih _ (fun q hq => h q (List.mem_cons_of_mem _ hq))]
      exact readAddr_set_ne s p.1 p.2 a (h p (List.mem_cons_self p ps))

/-- Writes at successor addresses in a cons-cell heap act on the tail. -/
theorem writeAll_shift (ps : List (Addr × PyTensor)) (x : PyTensor)
    (s : Store) :
    writeAll (x :: s) (ps.map (Prod.map Nat.succ id)) = x :: writeAll s ps := by
  induction ps generalizing x s with
  | nil => rfl
  | cons p ps ih =>
      rw [show p = (p.1, p.2) from rfl, List.map_cons, writeAll_cons,
        writeAll_cons]
      show writeAll ((x :: s).set (p.1 + 1) p.2) _ = _
      rw [List.set_cons_succ]
      exact ih x (s.set p.1 p.2)

/-- Writing fresh values pairwise at addresses `0, …, cur.length - 1` of the
heap `cur ++ rest` replaces exactly the `cur` prefix. -/
theorem writeAll_range_zip (cur : Store) :
    ∀ rest nv : Store, cur.length = nv.length →
      writeAll (cur ++ rest) ((List.range cur.length).zip nv) = nv ++ rest := by
  induction cur with
  | nil =>
      intro rest nv h
      cases nv with
      | nil => rfl
      | cons n ns => cases h
  | cons c cs ih =>
      intro rest nv h
      cases nv with
      | nil => cases h
      | cons n ns =>
          rw [List.length_cons, List.range_succ_eq_map, List.cons_append,
            List.zip_cons_cons, writeAll_cons, List.set_cons_zero,
            List.zip_map_left, writeAll_shift, List.cons_append]
          have h' : cs.length = ns.length := by
            simpa using h
          rw [ih rest ns h']

/-- Reading back the prefix of a heap through a range of addresses. -/
theorem map_readAddr_range (cur : Store) :
    ∀ rest : Store,
      (List.range cur.length).map (readAddr (cur ++ rest)) = cur := by
  induction cur with
  | nil => intro rest; rfl
  | cons c cs ih =>
      intro rest
      rw [List.length_cons, List.range_succ_eq_map, List.map_cons,
        List.map_map, List.cons_append]
      have h0 : readAddr (c :: (cs ++ rest)) 0 = c := rfl
      rw [h0]
      have h1 : ∀ j ∈ List.range cs.length,
          (readAddr (c :: (cs ++ rest)) ∘ Nat.succ) j =
            readAddr (cs ++ rest) j := by
        intro j _
        simp [readAddr, Function.comp, List.getD_cons_succ]
      rw [List.map_congr_left h1, ih rest]

/-- The optimizer step preserves the number of latent tensors, so the latent
values after any number of steps keep the initial count. -/
theorem valsAfter_length (upd : ℕ → List PyTensor → List PyTensor)
    (v0 : List PyTensor) (hupd : ∀ i vs, (upd i vs).length = vs.length) :
    ∀ k, (valsAfter upd k v0).length = v0.length := by
  intro k
  induction k with
  | zero => rfl
  | succ m ih => rw [valsAfter, hupd, ih]

/-- The snapshot region after `i` iterations holds `i` copies of the latent
list. -/
theorem snapsConcat_length (upd : ℕ → List PyTensor → List PyTensor)
    (v0 : List PyTensor) (hupd : ∀ i vs, (upd i vs).length = vs.length) :
    ∀ i, (snapsConcat upd v0 i).length = i * v0.length := by
  intro i
  induction i with
  | zero => rw [Nat.zero_mul]; rfl
  | succ m ih =>
      rw [snapsConcat, List.length_append, ih,
        valsAfter_length upd v0 hupd, Nat.succ_mul]

/-- `history` holds one entry per completed iteration. -/
theorem histAddrs_length (L : ℕ) : ∀ i, (histAddrs L i).length = i := by
  intro i
  induction i with
  | zero => rfl
  | succ m ih => rw [histAddrs, List.length_append, ih]; rfl

/-- The `k`-th history entry is the `k`-th snapshot's address block. -/
theorem histAddrs_getD (L : ℕ) :
    ∀ i k, k < i → (histAddrs L i).getD k [] = histEntry L k := by
  intro i
  induction i with
  | zero => intro k hk; exact absurd hk (Nat.not_lt_zero k)
  | succ m ih =>
      intro k hk
      rw [histAddrs]
      rcases Nat.lt_or_ge k m with hkm | hkm
      · rw [List.getD_append _ _ _ _ (by rw [histAddrs_length]; exact hkm)]
        exact ih k hkm
      · have hk' : k = m := by omega
        subst hk'
        rw [List.getD_append_right _ _ _ _ (by rw [histAddrs_length])]
        rw [histAddrs_length]
        simp

/-- Reading inside the snapshot region: position `k * L + j` of the
concatenated snapshots is position `j` of the snapshot taken after step
`k + 1`. -/
theorem snapsConcat_read (upd : ℕ → List PyTensor → List PyTensor)
    (v0 : List PyTensor) (hupd : ∀ i vs, (upd i vs).length = vs.length) :
    ∀ N k j, k < N → j < v0.length →
      readAddr (snapsConcat upd v0 N) (k * v0.length + j) =
        readAddr (valsAfter upd (k + 1) v0) j := by
  intro N
  induction N with
  | zero => intro k j hk _; exact absurd hk (Nat.not_lt_zero k)
  | succ m ih =>
      intro k j hk hj
      rw [snapsConcat]
      rcases Nat.lt_or_ge k m with hkm | hkm
      · rw [readAddr, List.getD_append]
        · exact ih k j hkm hj
        · rw [snapsConcat_length upd v0 hupd m]
          have h1 : k * v0.length + j < (k + 1) * v0.length := by
            rw [Nat.succ_mul]; omega
          exact lt_of_lt_of_le h1 (Nat.mul_le_mul_right v0.length hkm)
      · have hk' : k = m := by omega
        subst hk'
        rw [readAddr, List.getD_append_right _ _ _ _
          (by rw [snapsConcat_length upd v0 hupd k]; exact Nat.le_add_right _ _)]
        rw [snapsConcat_length upd v0 hupd k]
        have h2 : k * v0.length + j - k * v0.length = j := by omega
        rw [h2]
        rfl

/-- One `video = true` iteration advances the characterized state by one
step: the live prefix becomes the new latent values, the fresh snapshot is
appended to the heap, and its address block is appended to `history`. -/
theorem iterBody_char (upd : ℕ → List PyTensor → List PyTensor)
    (v0 : List PyTensor) (hupd : ∀ i vs, (upd i vs).length = vs.length)
    (i : ℕ) :
    iterBody upd true i
      ⟨valsAfter upd i v0 ++ snapsConcat upd v0 i, List.range v0.length,
        histAddrs v0.length i⟩ =
      ⟨valsAfter upd (i + 1) v0 ++ snapsConcat upd v0 (i + 1),
        List.range v0.length, histAddrs v0.length (i + 1)⟩ := by
  have hlen := valsAfter_length upd v0 hupd
  have hcur : ∀ k m, (List.range v0.length).map
      (readAddr (valsAfter upd k v0 ++ snapsConcat upd v0 m)) =
        valsAfter upd k v0 := by
    intro k m
    have h := map_readAddr_range (valsAfter upd k v0) (snapsConcat upd v0 m)
    rw [hlen k] at h
    exact h
  have hstore : writeAll (valsAfter upd i v0 ++ snapsConcat upd v0 i)
      ((List.range v0.length).zip (upd i (valsAfter upd i v0))) =
        valsAfter upd (i + 1) v0 ++ snapsConcat upd v0 i := by
    have h2 := writeAll_range_zip (valsAfter upd i v0) (snapsConcat upd v0 i)
      (upd i (valsAfter upd i v0)) (hupd i (valsAfter upd i v0)).symm
    rw [hlen i] at h2
    exact h2
  have hstep : optimizerStep upd i
      ⟨valsAfter upd i v0 ++ snapsConcat upd v0 i, List.range v0.length,
        histAddrs v0.length i⟩ =
      ⟨valsAfter upd (i + 1) v0 ++ snapsConcat upd v0 i,
        List.range v0.length, histAddrs v0.length i⟩ := by
    simp only [optimizerStep]
    rw [hcur i i, hstore]
  show deepcopyAppend (optimizerStep upd i
      ⟨valsAfter upd i v0 ++ snapsConcat upd v0 i, List.range v0.length,
        histAddrs v0.length i⟩) =
      ⟨valsAfter upd (i + 1) v0 ++ snapsConcat upd v0 (i + 1),
        List.range v0.length, histAddrs v0.length (i + 1)⟩
  rw [hstep]
  simp only [deepcopyAppend]
  rw [hcur (i + 1) i]
  have hstore2 : (valsAfter upd (i + 1) v0 ++ snapsConcat upd v0 i) ++
      valsAfter upd (i + 1) v0 =
      valsAfter upd (i + 1) v0 ++ snapsConcat upd v0 (i + 1) := by
    rw [List.append_assoc]
    rfl
  have hhist2 : (List.range (List.range v0.length).length).map
      (fun j => (valsAfter upd (i + 1) v0 ++ snapsConcat upd v0 i).length + j) =
      histEntry v0.length i := by
    simp only [List.length_range, List.length_append, hlen,
      snapsConcat_length upd v0 hupd, histEntry]
  rw [hstore2, hhist2]
  rfl

/-- The loop's reachable states, in closed form (`video = true`). -/
theorem loopFrom_char (upd : ℕ → List PyTensor → List PyTensor)
    (v0 : List PyTensor) (hupd : ∀ i vs, (upd i vs).length = vs.length) :
    ∀ k i, loopFrom upd true i k
      ⟨valsAfter upd i v0 ++ snapsConcat upd v0 i, List.range v0.length,
        histAddrs v0.length i⟩ =
      ⟨valsAfter upd (i + k) v0 ++ snapsConcat upd v0 (i + k),
        List.range v0.length, histAddrs v0.length (i + k)⟩ := by
  intro k
  induction k with
  | zero => intro i; rfl
  | succ m ih =>
      intro i
      show loopFrom upd true (i + 1) m (iterBody upd true i _) = _
      rw [iterBody_char upd v0 hupd i, ih (i + 1)]
      have h : i + 1 + m = i + (m + 1) := by omega
      rw [h]

/-- The final state of `invertRun` with `video = true`, in closed form. -/
theorem invertRun_char (upd : ℕ → List PyTensor → List PyTensor)
    (v0 : List PyTensor) (hupd : ∀ i vs, (upd i vs).length = vs.length)
    (N : ℕ) :
    invertRun upd true N v0 =
      ⟨valsAfter upd N v0 ++ snapsConcat upd v0 N, List.range v0.length,
        histAddrs v0.length N⟩ := by
  have h := loopFrom_char upd v0 hupd N 0
  simp only [valsAfter, snapsConcat, histAddrs, List.append_nil,
    Nat.zero_add] at h
  exact h

/-- With `video = false` the loop never touches `history`. -/
theorem loopFrom_false_history (upd : ℕ → List PyTensor → List PyTensor) :
    ∀ k i st, (loopFrom upd false i k st).history = st.history := by
  intro k
  induction k with
  | zero => intro i st; rfl
  | succ m ih =>
      intro i st
      show (loopFrom upd false (i + 1) m (iterBody upd false i st)).history = _
      rw [ih]
      rfl

/-- Reading one history entry out of the final heap yields the latent values
recorded right after the corresponding optimizer step. -/
theorem histEntry_map_read (upd : ℕ → List PyTensor → List PyTensor)
    (v0 : List PyTensor) (hupd : ∀ i vs, (upd i vs).length = vs.length)
    (N k : ℕ) (hk : k < N) :
    (histEntry v0.length k).map
        (readAddr (valsAfter upd N v0 ++ snapsConcat upd v0 N)) =
      valsAfter upd (k + 1) v0 := by
  rw [histEntry, List.map_map]
  have h1 : ∀ j ∈ List.range v0.length,
      (readAddr (valsAfter upd N v0 ++ snapsConcat upd v0 N) ∘
        (fun j => v0.length + k * v0.length + j)) j =
        readAddr (valsAfter upd (k + 1) v0) j := by
    intro j hj
    have hj' : j < v0.length := List.mem_range.mp hj
    show readAddr (valsAfter upd N v0 ++ snapsConcat upd v0 N)
        (v0.length + k * v0.length + j) = _
    rw [readAddr, List.getD_append_right _ _ _ _
      (by rw [valsAfter_length upd v0 hupd]; omega)]
    rw [valsAfter_length upd v0 hupd]
    have h2 : v0.length + k * v0.length + j - v0.length =
        k * v0.length + j := by omega
    rw [h2]
    exact snapsConcat_read upd v0 hupd N k j hk hj'
  rw [List.map_congr_left h1]
  calc (List.range v0.length).map (readAddr (valsAfter upd (k + 1) v0))
      = (List.range (valsAfter upd (k + 1) v0).length).map
          (readAddr (valsAfter upd (k + 1) v0)) := by
        rw [valsAfter_length upd v0 hupd]
    _ = (List.range (valsAfter upd (k + 1) v0).length).map
          (readAddr (valsAfter upd (k + 1) v0 ++ [])) := by
        rw [List.append_nil]
    _ = valsAfter upd (k + 1) v0 := map_readAddr_range _ _

/-! ## Claim C3: history length, snapshot contents, and independence -/

/-- Claim C3: running `invert`'s loop for `N > 0` iterations with
`video = True` produces a history of length exactly `N`; the `k`-th entry
reads back the latent state recorded after optimizer step `k + 1`; the
entries are independent deep snapshots — any in-place writes to the live
(returned) latent tensors after the run leave every recorded history value
unchanged; and with `video = False` the returned history is empty. -/
theorem invert_video_history (upd : ℕ → List PyTensor → List PyTensor)
    (v0 : List PyTensor) (N : ℕ) (hN : 0 < N)
    (hupd : ∀ i vs, (upd i vs).length = vs.length) :
    (invertRun upd true N v0).history.length = N ∧
    (∀ k, k < N →
      ((invertRun upd true N v0).history.getD k []).map
          (readAddr (invertRun upd true N v0).store) =
        valsAfter upd (k + 1) v0) ∧
    (∀ ps : List (Addr × PyTensor),
      (∀ p ∈ ps, p.1 ∈ (invertRun upd true N v0).live) →
      ∀ k, k < N →
        ((invertRun upd true N v0).history.getD k []).map
            (readAddr (writeAll (invertRun upd true N v0).store ps)) =
          ((invertRun upd true N v0).history.getD k []).map
            (readAddr (invertRun upd true N v0).store)) ∧
    (invertRun upd false N v0).history = [] := by
  rw [invertRun_char upd v0 hupd N]
  refine ⟨histAddrs_length v0.length N, ?_, ?_, ?_⟩
  · intro k hk
    show ((histAddrs v0.length N).getD k []).map _ = _
    rw [histAddrs_getD v0.length N k hk]
    exact histEntry_map_read upd v0 hupd N k hk
  · intro ps hps k hk
    show ((histAddrs v0.length N).getD k []).map _ =
      ((histAddrs v0.length N).getD k []).map _
    rw [histAddrs_getD v0.length N k hk]
    apply List.map_congr_left
    intro a ha
    rw [histEntry] at ha
    obtain ⟨j, hj, rfl⟩ := List.mem_map.mp ha
    apply readAddr_writeAll_ne
    intro p hp
    have hlive : p.1 < v0.length := List.mem_range.mp (hps p hp)
    have hge : v0.length ≤ v0.length + k * v0.length + j :=
      le_trans (Nat.le_add_right _ _) (Nat.le_add_right _ _)
    intro hEq
    rw [← hEq] at hge
    exact absurd hlive (not_lt.mpr hge)
  · show (loopFrom upd false 0 N _).history = []
    rw [loopFrom_false_history]

/-- Witness for C3: one iteration on a single latent tensor with a concrete
in-place update. -/
theorem invert_video_history_witness :
    0 < 1 ∧
    (∀ i vs, (updTest i vs).length = vs.length) ∧
    ((invertRun updTest true 1 [torchZeros [1]]).history.length = 1 ∧
    (∀ k, k < 1 →
      ((invertRun updTest true 1 [torchZeros [1]]).history.getD k []).map
          (readAddr (invertRun updTest true 1 [torchZeros [1]]).store) =
        valsAfter updTest (k + 1) [torchZeros [1]]) ∧
    (∀ ps : List (Addr × PyTensor),
      (∀ p ∈ ps, p.1 ∈ (invertRun updTest true 1 [torchZeros [1]]).live) →
      ∀ k, k < 1 →
        ((invertRun updTest true 1 [torchZeros [1]]).history.getD k []).map
            (readAddr (writeAll (invertRun updTest true 1 [torchZeros [1]]).store ps)) =
          ((invertRun updTest true 1 [torchZeros [1]]).history.getD k []).map
            (readAddr (invertRun updTest true 1 [torchZeros [1]]).store)) ∧
    (invertRun updTest false 1 [torchZeros [1]]).history = []) :=
  ⟨Nat.one_pos, fun i vs => List.length_map vs _,
    invert_video_history updTest [torchZeros [1]] 1 Nat.one_pos
      (fun i vs => List.length_map vs _)⟩

end MGAN
